import Mathlib

/-!
# snippetbin: the REST handlers of `snippetbin/main.go`

A shallow embedding of the five HTTP handlers of `main.go` (`getSnippets`,
`getSnippet`, `createSnippet`, `updateSnippet`, `deleteSnippet`).

* The `http.ResponseWriter` is an explicit value threaded through the handler
  (`ResponseWriter`, with `setHeader`, `WriteHeader`, `Write`, `Error`).
* The database handle `*gorm.DB` is an explicit interface `DB σ` over a store
  state `σ`; every handler returns the store state it leaves behind together
  with the list of store calls it issued.
* `encoding/json` appears as the `JSON` record (encoders) and as the
  `RequestBody` type with `Decode` (decoder).
-/

namespace Snippetbin

/-! ## Data model -/

/-- Modelled from the spec: the `Snippet` declaration is not part of `main.go`.
Section 3 of the specification gives the store-managed attributes `id`,
`created_at`, `updated_at`, `deleted_at` and the scenarios of section 8 use the
payload schema `title : string`, `body : string`.  Timestamps are instants
counted as natural numbers. -/
structure Snippet where
  ID : Nat
  CreatedAt : Nat
  UpdatedAt : Nat
  DeletedAt : Option Nat
  Title : String
  Body : String
deriving DecidableEq, Repr

/-- The Go zero value of `Snippet`, the content of `var snippet Snippet`. -/
def Snippet.zero : Snippet :=
  { ID := 0, CreatedAt := 0, UpdatedAt := 0, DeletedAt := none, Title := "", Body := "" }

/-! ## net/http -/

def StatusOK : Nat := 200
def StatusCreated : Nat := 201
def StatusBadRequest : Nat := 400
def StatusNotFound : Nat := 404
def StatusInternalServerError : Nat := 500

/-- The observable state of an `http.ResponseWriter`: the headers that will be
sent, the status line once it has been written, and the bytes of the body. -/
structure ResponseWriter where
  header : List (String × String)
  status : Option Nat
  body : String
deriving DecidableEq, Repr

/-- The writer a handler receives: nothing set, nothing written. -/
def ResponseWriter.fresh : ResponseWriter :=
  { header := [], status := none, body := "" }

/-- `w.Header().Set(k, v)`; headers are frozen once the status line is out. -/
def setHeader (w : ResponseWriter) (k v : String) : ResponseWriter :=
  match w.status with
  | some _ => w
  | none => { w with header := (k, v) :: w.header.filter (fun kv => kv.1 ≠ k) }

/-- `w.WriteHeader(code)`; a second call is ignored. -/
def WriteHeader (w : ResponseWriter) (code : Nat) : ResponseWriter :=
  match w.status with
  | some _ => w
  | none => { w with status := some code }

/-- `w.Write(b)`; writes the status line with 200 first when it is not out yet. -/
def Write (w : ResponseWriter) (b : String) : ResponseWriter :=
  let w1 := WriteHeader w StatusOK
  { w1 with body := w1.body ++ b }

/-- `http.Error(w, msg, code)`: plain-text content type, the status code, and
the message followed by a newline (`fmt.Fprintln`). -/
def Error (w : ResponseWriter) (msg : String) (code : Nat) : ResponseWriter :=
  let w1 := setHeader w "Content-Type" "text/plain; charset=utf-8"
  let w2 := setHeader w1 "X-Content-Type-Options" "nosniff"
  let w3 := WriteHeader w2 code
  Write w3 (msg ++ "\n")

/-- The status code the client sees (200 when `WriteHeader` was never reached). -/
def ResponseWriter.statusCode (w : ResponseWriter) : Nat :=
  w.status.getD StatusOK

/-- The `Content-Type` header the client sees. -/
def ResponseWriter.contentType (w : ResponseWriter) : Option String :=
  w.header.lookup "Content-Type"

/-! ## encoding/json -/

/-- A request body as the decoder sees it: either it does not decode (with the
decoder's error message) or it is a JSON object in which each payload field is
present with a value or absent.  Keys other than the payload fields are ignored
by the decoder and therefore not represented. -/
inductive RequestBody where
  | malformed (err : String)
  | object (title : Option String) (body : Option String)
deriving DecidableEq, Repr

/-- `json.NewDecoder(r.Body).Decode(&v)`: a field present in the body overwrites
the field of `v`, an absent field leaves it as it is. -/
def Decode (b : RequestBody) (v : Snippet) : Except String Snippet :=
  match b with
  | .malformed err => .error err
  | .object title body =>
    .ok { v with Title := title.getD v.Title, Body := body.getD v.Body }

/-- `json.Marshal`, for a snippet and for a slice of snippets: the encoded bytes
or an error. -/
structure JSON where
  Marshal : Snippet → Except String String
  MarshalSlice : List Snippet → Except String String

/-! ## The request and the database handle -/

/-- The part of `*http.Request` the handlers read: the route variables that
`mux.Vars` returns and the body. -/
structure Request where
  Vars : List (String × String)
  Body : RequestBody
deriving DecidableEq, Repr

/-- Indexing a Go `map[string]string`: the empty string for a missing key. -/
def mapIndex (m : List (String × String)) (k : String) : String :=
  (m.lookup k).getD ""

/-- The calls of `*gorm.DB` that `main.go` uses, over a store state `σ`.
`Find` and `First` are queries; `Create`, `Updates` and `Delete` also return
the store state they leave.  `Create` and `Updates` return the new content of
the struct they were given a pointer to; `Delete` leaves its argument as is. -/
structure DB (σ : Type) where
  Find : σ → Except String (List Snippet)
  First : σ → String → Except String Snippet
  Create : σ → Snippet → Except String Snippet × σ
  Updates : σ → Snippet → Snippet → Except String Snippet × σ
  Delete : σ → Snippet → Except String Unit × σ

/-- A call issued against the store. -/
inductive Call where
  | Find
  | First (id : String)
  | Create (value : Snippet)
  | Updates (model : Snippet) (values : Snippet)
  | Delete (value : Snippet)
deriving DecidableEq, Repr

/-- What a handler leaves behind: the response, the store, and the store calls
it made, in order. -/
structure Outcome (σ : Type) where
  w : ResponseWriter
  db : σ
  calls : List Call

/-- The text of `fmt.Sprintf("Snippet with ID: %s not found", snippetID)`. -/
def notFoundMessage (snippetID : String) : String :=
  "Snippet with ID: " ++ snippetID ++ " not found"

/-! ## The handlers

The calls to `fmt.Errorf` in the source build an error value that is thrown
away; they have no effect and do not appear below. -/

variable {σ : Type}

def getSnippets (db : DB σ) (json : JSON) (s : σ) (w : ResponseWriter) (_r : Request) :
    Outcome σ :=
  match db.Find s with
  | .error err => ⟨Error w err StatusNotFound, s, [.Find]⟩
  | .ok snippets =>
    match json.MarshalSlice snippets with
    | .error err => ⟨Error w err StatusInternalServerError, s, [.Find]⟩
    | .ok response =>
      let w1 := setHeader w "Content-Type" "application/json"
      ⟨Write w1 response, s, [.Find]⟩

def getSnippet (db : DB σ) (json : JSON) (s : σ) (w : ResponseWriter) (r : Request) :
    Outcome σ :=
  let snippetID := mapIndex r.Vars "id"
  match db.First s snippetID with
  | .error _ => ⟨Error w (notFoundMessage snippetID) StatusNotFound, s, [.First snippetID]⟩
  | .ok snippet =>
    match json.Marshal snippet with
    | .error err => ⟨Error w err StatusInternalServerError, s, [.First snippetID]⟩
    | .ok response =>
      let w1 := setHeader w "Content-Type" "application/json"
      ⟨Write w1 response, s, [.First snippetID]⟩

def createSnippet (db : DB σ) (json : JSON) (s : σ) (w : ResponseWriter) (r : Request) :
    Outcome σ :=
  match Decode r.Body Snippet.zero with
  | .error err => ⟨Error w err StatusBadRequest, s, []⟩
  | .ok decoded =>
    match db.Create s decoded with
    | (.error err, s1) => ⟨Error w err StatusBadRequest, s1, [.Create decoded]⟩
    | (.ok snippet, s1) =>
      match json.Marshal snippet with
      | .error err => ⟨Error w err StatusInternalServerError, s1, [.Create decoded]⟩
      | .ok response =>
        let w1 := setHeader w "Content-Type" "application/json"
        let w2 := WriteHeader w1 StatusCreated
        ⟨Write w2 response, s1, [.Create decoded]⟩

def updateSnippet (db : DB σ) (json : JSON) (s : σ) (w : ResponseWriter) (r : Request) :
    Outcome σ :=
  let snippetID := mapIndex r.Vars "id"
  match db.First s snippetID with
  | .error _ => ⟨Error w (notFoundMessage snippetID) StatusNotFound, s, [.First snippetID]⟩
  | .ok snippet =>
    match Decode r.Body Snippet.zero with
    | .error err => ⟨Error w err StatusBadRequest, s, [.First snippetID]⟩
    | .ok updated =>
      match db.Updates s snippet updated with
      | (.error err, s1) =>
        ⟨Error w err StatusBadRequest, s1, [.First snippetID, .Updates snippet updated]⟩
      | (.ok snippet1, s1) =>
        match json.Marshal snippet1 with
        | .error err =>
          ⟨Error w err StatusInternalServerError, s1,
            [.First snippetID, .Updates snippet updated]⟩
        | .ok response =>
          let w1 := setHeader w "Content-Type" "application/json"
          let w2 := WriteHeader w1 StatusOK
          ⟨Write w2 response, s1, [.First snippetID, .Updates snippet updated]⟩

def deleteSnippet (db : DB σ) (json : JSON) (s : σ) (w : ResponseWriter) (r : Request) :
    Outcome σ :=
  let snippetID := mapIndex r.Vars "id"
  match db.First s snippetID with
  | .error _ => ⟨Error w (notFoundMessage snippetID) StatusNotFound, s, [.First snippetID]⟩
  | .ok snippet =>
    match db.Delete s snippet with
    | (.error err, s1) =>
      ⟨Error w ("Error deleting snippet: " ++ err) StatusBadRequest, s1,
        [.First snippetID, .Delete snippet]⟩
    | (.ok _, s1) =>
      match json.Marshal snippet with
      | .error err =>
        ⟨Error w err StatusInternalServerError, s1, [.First snippetID, .Delete snippet]⟩
      | .ok response =>
        let w1 := setHeader w "Content-Type" "application/json"
        ⟨Write w1 response, s1, [.First snippetID, .Delete snippet]⟩

/-! ## The store

`main.go` reaches the database only through `*gorm.DB`; the store itself is not
part of the source.  The definitions of this section follow section 4.1 of the
specification (operations `List`, `Get`, `Create`, `Update`, `Delete`) and
section 3 (soft delete, server-assigned ids and timestamps).  The fetch-by-id
receives the path string as it is, and reads it the way the `First` of the ORM
that `main.go` imports reads a string argument: as a primary key when it is a
number, as a condition of the query otherwise. -/

/-- Whether the path string is a decimal number: at least one character, all of
them ASCII digits. -/
def isDecimal (id : String) : Bool :=
  !id.data.isEmpty && id.data.all Char.isDigit

/-- The value of a digit character. -/
def digitValue (c : Char) : Nat :=
  c.toNat - 48

/-- The number a list of digit characters denotes, most significant first. -/
def parseDigits (cs : List Char) : Nat :=
  cs.foldl (fun acc c => 10 * acc + digitValue c) 0

/-- White space, the class `\s` of the ORM's regular expressions: space, tab,
line feed, form feed, carriage return. -/
def isSpace (c : Char) : Bool :=
  c == Char.ofNat 32 || c == Char.ofNat 9 || c == Char.ofNat 10 || c == Char.ofNat 12 ||
    c == Char.ofNat 13

/-- The ORM's test for a primary key given as a string, its regular expression
`^\s*\d+\s*$`: digits, at least one, with white space allowed around them. -/
def isNumber (id : String) : Bool :=
  let cs := id.data.dropWhile isSpace
  !(cs.takeWhile Char.isDigit).isEmpty && (cs.dropWhile Char.isDigit).all isSpace

/-- The key a number string denotes: the value of its digits. -/
def numberValue (id : String) : Nat :=
  parseDigits ((id.data.dropWhile isSpace).takeWhile Char.isDigit)

/-- Modelled from the spec: the store "coerces [the id string] to the
primary-key type"; a string that is not a number has no key. -/
def parseID (id : String) : Option Nat :=
  if isNumber id then some (numberValue id) else none

/-- The SQL engine's reading of a string as a condition on a row: an error
message when the string is not an expression the engine accepts, else the truth
value of the expression on each row.  The engine is not part of `main.go`; the
store takes it as a parameter. -/
structure SQL where
  condition : String → Except String (Snippet → Bool)

/-- The condition the ORM's `First` adds to the query for a string argument
that is not a number: none for the empty string, else the string itself, in
parentheses. -/
def inlineCondition (sql : SQL) (id : String) : Except String (Snippet → Bool) :=
  if id = "" then .ok (fun _ => true) else sql.condition id

/-- The row a query `ORDER BY id ASC LIMIT 1` returns from the rows that match:
one of least id. -/
def firstByID : List Snippet → Option Snippet
  | [] => none
  | r :: rs =>
    match firstByID rs with
    | none => some r
    | some b => if b.ID < r.ID then some b else some r

/-- The decimal rendering of an id, as it appears in a path. -/
def formatID (n : Nat) : String :=
  ⟨Nat.toDigits 10 n⟩

/-- Modelled from the spec: the state of the durable store behind `*gorm.DB`
(the database is not part of `main.go`): every row ever inserted, soft-deleted
ones included, the next id of the autoincrement primary key, and the clock. -/
structure Store where
  rows : List Snippet
  nextID : Nat
  now : Nat
deriving DecidableEq, Repr

/-- The store of a new database file. -/
def Store.empty : Store :=
  { rows := [], nextID := 1, now := 0 }

/-- The message of the store's NotFound error. -/
def recordNotFound : String :=
  "record not found"

/-- Modelled from the spec: "a row with a non-null `deleted_at` is excluded from
list and single-fetch results". -/
def live (r : Snippet) : Bool :=
  r.DeletedAt.isNone

/-- The live row with primary key `n`, if there is one. -/
def Store.lookup (s : Store) (n : Nat) : Option Snippet :=
  s.rows.find? (fun r => live r && r.ID == n)

/-- Modelled from the spec: `List()` "returns all non-deleted rows". -/
def Store.List (s : Store) : Except String (List Snippet) :=
  .ok (s.rows.filter live)

/-- Modelled from the spec: `Get(id)` "fetches by primary key; soft-deleted rows
are treated as not found".  The argument is the path string, read as the ORM's
`First` (not part of `main.go`) reads a string: a number is the primary key;
any other string is a condition of the query, and the fetch returns the live
row of least id that satisfies it, fails with the engine's error when the
engine rejects the condition, and fails with NotFound when no live row
satisfies it. -/
def Store.Get (sql : SQL) (s : Store) (id : String) : Except String Snippet :=
  if isNumber id then
    match s.lookup (numberValue id) with
    | none => .error recordNotFound
    | some r => .ok r
  else
    match inlineCondition sql id with
    | .error e => .error e
    | .ok p =>
      match firstByID (s.rows.filter fun r => live r && p r) with
      | none => .error recordNotFound
      | some r => .ok r

/-- Modelled from the spec: `Create(snippet)` "inserts a new row; on success
returns the snippet with server-assigned `id`, `created_at`, `updated_at`
populated"; the id comes from a monotonic autoincrement. -/
def Store.Create (s : Store) (v : Snippet) : Except String Snippet × Store :=
  let y := { v with ID := s.nextID, CreatedAt := s.now, UpdatedAt := s.now }
  (.ok y, { rows := s.rows ++ [y], nextID := s.nextID + 1, now := s.now + 1 })

/-- Modelled from the spec: the "merge non-zero fields" policy of `Update`: a
payload field of the patch replaces the row's field unless it is the zero value
of its type (the empty string); `updated_at` is set by the store. -/
def mergeNonZero (row patch : Snippet) (now : Nat) : Snippet :=
  { row with
    Title := if patch.Title = "" then row.Title else patch.Title
    Body := if patch.Body = "" then row.Body else patch.Body
    UpdatedAt := now }

/-- Modelled from the spec: `Update(id, patch)` "locates the row by `id`; applies
only the fields supplied in `patch` (absent fields are not cleared).  Returns
the post-update row", and fails with NotFound when there is no such row.  The
row is the one with the primary key of `model`. -/
def Store.Update (s : Store) (model patch : Snippet) : Except String Snippet × Store :=
  match s.lookup model.ID with
  | none => (.error recordNotFound, s)
  | some r =>
    (.ok (mergeNonZero r patch s.now),
     { s with
       rows := s.rows.map fun x =>
         if live x && x.ID == model.ID then mergeNonZero x patch s.now else x
       now := s.now + 1 })

/-- Modelled from the spec: `Delete` is a "soft-delete by setting `deleted_at`",
and fails with NotFound when there is no such row.  The row is the one with the
primary key of `v`; `v` itself is left as it is. -/
def Store.Delete (s : Store) (v : Snippet) : Except String Unit × Store :=
  match s.lookup v.ID with
  | none => (.error recordNotFound, s)
  | some _ =>
    (.ok (),
     { s with
       rows := s.rows.map fun x =>
         if live x && x.ID == v.ID then { x with DeletedAt := some s.now } else x
       now := s.now + 1 })

/-- Modelled from the spec: the database handle of `main.go`, backed by the
store of section 4.1, over the SQL engine `sql`. -/
def gorm (sql : SQL) : DB Store :=
  { Find := Store.List
    First := Store.Get sql
    Create := Store.Create
    Updates := Store.Update
    Delete := Store.Delete }

/-- The primary-key invariant of the autoincrement: every id in use is below
the next id to be assigned. -/
def Store.WF (s : Store) : Prop :=
  ∀ r ∈ s.rows, r.ID < s.nextID

/-- The store states the service reaches from a new database file by serving
requests, one after the other. -/
inductive Reachable (sql : SQL) (json : JSON) : Store → Prop where
  | empty : Reachable sql json Store.empty
  | getSnippets (s : Store) (r : Request) :
      Reachable sql json s → Reachable sql json (getSnippets (gorm sql) json s .fresh r).db
  | getSnippet (s : Store) (r : Request) :
      Reachable sql json s → Reachable sql json (getSnippet (gorm sql) json s .fresh r).db
  | createSnippet (s : Store) (r : Request) :
      Reachable sql json s → Reachable sql json (createSnippet (gorm sql) json s .fresh r).db
  | updateSnippet (s : Store) (r : Request) :
      Reachable sql json s → Reachable sql json (updateSnippet (gorm sql) json s .fresh r).db
  | deleteSnippet (s : Store) (r : Request) :
      Reachable sql json s → Reachable sql json (deleteSnippet (gorm sql) json s .fresh r).db

/-! ## Concrete data for evaluation -/

/-- An encoder that always succeeds: id, title and body, separated by colons. -/
def textJSON : JSON :=
  { Marshal := fun y => .ok (formatID y.ID ++ ":" ++ y.Title ++ ":" ++ y.Body)
    MarshalSlice := fun l =>
      .ok (String.intercalate "," (l.map fun y => formatID y.ID ++ ":" ++ y.Title ++ ":" ++ y.Body)) }

/-- A store with one live row, id 1, title `a`, body `x`. -/
def store1 : Store :=
  { rows := [{ ID := 1, CreatedAt := 0, UpdatedAt := 0, DeletedAt := none, Title := "a", Body := "x" }]
    nextID := 2
    now := 1 }

/-- An SQL engine on a fragment of the conditions: an integer literal with a
minus sign, true when it is not zero, and the comparison `a=b` of two unsigned
integer literals.  A string outside the fragment is reported as an error here;
the evaluations below use it inside the fragment, and on strings the engine
proper rejects as well. -/
def sqlFragment : SQL :=
  { condition := fun q =>
      match q.data with
      | '-' :: ds =>
        if !ds.isEmpty && ds.all Char.isDigit then .ok (fun _ => parseDigits ds != 0)
        else .error "unrecognized token"
      | cs =>
        match cs.dropWhile Char.isDigit with
        | '=' :: ds =>
          if !(cs.takeWhile Char.isDigit).isEmpty && !ds.isEmpty && ds.all Char.isDigit then
            .ok (fun _ => parseDigits (cs.takeWhile Char.isDigit) == parseDigits ds)
          else .error "unrecognized token"
        | _ => .error "unrecognized token" }

/-- The request for path id `id` with body `b`. -/
def request (id : String) (b : RequestBody) : Request :=
  { Vars := [("id", id)], Body := b }

/-- The response of a handler that succeeded with status `code` and the encoded
bytes `out`. -/
def jsonResponse (code : Nat) (out : String) : ResponseWriter :=
  { header := [("Content-Type", "application/json")], status := some code, body := out }

/-- A database handle on which every call fails with the same error. -/
def brokenDB (err : String) : DB Unit :=
  { Find := fun _ => .error err
    First := fun _ _ => .error err
    Create := fun _ _ => (.error err, ())
    Updates := fun _ _ _ => (.error err, ())
    Delete := fun _ _ => (.error err, ()) }

/-- A database handle that finds the zero snippet under every id and rejects
every write. -/
def readOnlyDB (err : String) : DB Unit :=
  { Find := fun _ => .ok []
    First := fun _ _ => .ok Snippet.zero
    Create := fun _ _ => (.error err, ())
    Updates := fun _ _ _ => (.error err, ())
    Delete := fun _ _ => (.error err, ()) }

/-! ## The response writer -/

theorem empty_append (t : String) : "" ++ t = t := by
  apply String.ext
  simp [String.data_append]

/-- An error response on a fresh writer. -/
theorem Error_fresh (msg : String) (code : Nat) :
    Error .fresh msg code =
      { header := [("X-Content-Type-Options", "nosniff"),
                   ("Content-Type", "text/plain; charset=utf-8")]
        status := some code
        body := msg ++ "\n" } := by
  simp [Error, Write, WriteHeader, setHeader, ResponseWriter.fresh, empty_append]

theorem Error_fresh_statusCode (msg : String) (code : Nat) :
    (Error .fresh msg code).statusCode = code := by
  simp [Error_fresh, ResponseWriter.statusCode]

theorem Error_fresh_contentType (msg : String) (code : Nat) :
    (Error .fresh msg code).contentType = some "text/plain; charset=utf-8" := by
  simp [Error_fresh, ResponseWriter.contentType, List.lookup]

theorem Error_fresh_body (msg : String) (code : Nat) :
    (Error .fresh msg code).body = msg ++ "\n" := by
  simp [Error_fresh]

/-- A JSON response without an explicit status line. -/
theorem Write_json_fresh (out : String) :
    Write (setHeader .fresh "Content-Type" "application/json") out =
      { header := [("Content-Type", "application/json")], status := some 200, body := out } := by
  simp [Write, WriteHeader, setHeader, ResponseWriter.fresh, empty_append, StatusOK]

/-- A JSON response with an explicit status line. -/
theorem Write_json_code_fresh (out : String) (code : Nat) :
    Write (WriteHeader (setHeader .fresh "Content-Type" "application/json") code) out =
      { header := [("Content-Type", "application/json")], status := some code, body := out } := by
  simp [Write, WriteHeader, setHeader, ResponseWriter.fresh, empty_append]

/-! ## Decimal ids -/

theorem digitChar_value (d : Nat) (h : d < 10) :
    digitValue (Nat.digitChar d) = d ∧ (Nat.digitChar d).isDigit = true := by
  interval_cases d <;> decide

theorem foldl_toDigitsCore (fuel : Nat) :
    ∀ n ds, n < fuel →
      (Nat.toDigitsCore 10 fuel n ds).foldl (fun acc c => 10 * acc + digitValue c) 0 =
        ds.foldl (fun acc c => 10 * acc + digitValue c) n := by
  induction fuel with
  | zero => intro n ds h; omega
  | succ fuel ih =>
    intro n ds h
    have hd := (digitChar_value (n % 10) (Nat.mod_lt _ (by decide))).1
    by_cases h0 : n / 10 = 0
    · have hn : n % 10 = n := Nat.mod_eq_of_lt (by omega)
      rw [hn] at hd
      simp [Nat.toDigitsCore, h0, hn, hd]
    · have hlt : n / 10 < fuel := by omega
      simp only [Nat.toDigitsCore, h0, if_false]
      rw [ih (n / 10) _ hlt]
      simp only [List.foldl_cons, hd]
      congr 1
      omega

theorem all_toDigitsCore (fuel : Nat) :
    ∀ n ds, (Nat.toDigitsCore 10 fuel n ds).all Char.isDigit = ds.all Char.isDigit := by
  induction fuel with
  | zero => intro n ds; rfl
  | succ fuel ih =>
    intro n ds
    have hd := (digitChar_value (n % 10) (Nat.mod_lt _ (by decide))).2
    by_cases h0 : n / 10 = 0
    · simp [Nat.toDigitsCore, h0, hd]
    · simp only [Nat.toDigitsCore, h0, if_false]
      rw [ih]
      simp [hd]

theorem toDigitsCore_ne_nil (fuel : Nat) :
    ∀ n ds, ds ≠ [] → Nat.toDigitsCore 10 fuel n ds ≠ [] := by
  induction fuel with
  | zero => intro n ds h; simpa [Nat.toDigitsCore] using h
  | succ fuel ih =>
    intro n ds _
    by_cases h0 : n / 10 = 0
    · simp [Nat.toDigitsCore, h0]
    · simp only [Nat.toDigitsCore, h0, if_false]
      exact ih _ _ (by simp)

theorem toDigits_ne_nil (n : Nat) : Nat.toDigits 10 n ≠ [] := by
  unfold Nat.toDigits
  by_cases h0 : n / 10 = 0
  · simp [Nat.toDigitsCore, h0]
  · simp only [Nat.toDigitsCore, h0, if_false]
    exact toDigitsCore_ne_nil _ _ _ (by simp)

theorem isSpace_of_isDigit (c : Char) (h : c.isDigit = true) : isSpace c = false := by
  by_contra hs
  simp only [isSpace, Bool.not_eq_false, Bool.or_eq_true, beq_iff_eq] at hs
  rcases hs with (((hs | hs) | hs) | hs) | hs <;> subst hs <;> revert h <;> decide

/-- On a string of digits the ORM's expression finds the digits and nothing
else. -/
theorem digits_split (cs : List Char) (h : cs.all Char.isDigit = true) :
    cs.dropWhile isSpace = cs ∧ cs.takeWhile Char.isDigit = cs ∧
      cs.dropWhile Char.isDigit = [] := by
  refine ⟨?_, ?_, ?_⟩
  · cases cs with
    | nil => rfl
    | cons c cs =>
      have hc : c.isDigit = true := by simp at h; exact h.1
      simp [List.dropWhile, isSpace_of_isDigit c hc]
  · rw [List.takeWhile_eq_self_iff]
    simpa using h
  · rw [List.dropWhile_eq_nil_iff]
    simpa using h

/-- Every decimal number is a number for the ORM, with the value of its
digits. -/
theorem isNumber_of_isDecimal (id : String) (h : isDecimal id = true) :
    isNumber id = true ∧ numberValue id = parseDigits id.data := by
  simp only [isDecimal, Bool.and_eq_true, Bool.not_eq_true'] at h
  obtain ⟨h1, h2, h3⟩ := digits_split id.data h.2
  simp only [isNumber, numberValue, h1, h2, h3, h.1]
  simp

/-- Reading back the decimal rendering of an id gives the id. -/
theorem parseID_formatID (n : Nat) : parseID (formatID n) = some n := by
  have h1 : isDecimal (formatID n) = true := by
    have hne := toDigits_ne_nil n
    have hall : (Nat.toDigits 10 n).all Char.isDigit = true := by
      unfold Nat.toDigits
      rw [all_toDigitsCore]
      rfl
    simp only [isDecimal, formatID, Bool.and_eq_true, Bool.not_eq_true', hall, and_true]
    cases h : Nat.toDigits 10 n with
    | nil => exact absurd h hne
    | cons c cs => rfl
  have h2 : parseDigits (formatID n).data = n := by
    simp only [parseDigits, formatID, Nat.toDigits]
    rw [foldl_toDigitsCore _ _ _ (Nat.lt_succ_self n)]
    rfl
  obtain ⟨h3, h4⟩ := isNumber_of_isDecimal _ h1
  simp [parseID, h3, h4, h2]

/-! ## The handlers, case by case -/

/-- When the fetch fails, the three by-id handlers stop at the 404 response. -/
theorem handlers_of_First_error (db : DB σ) (json : JSON) (s : σ) (r : Request) (e : String)
    (h : db.First s (mapIndex r.Vars "id") = .error e) :
    getSnippet db json s .fresh r =
        ⟨Error .fresh (notFoundMessage (mapIndex r.Vars "id")) StatusNotFound, s,
          [.First (mapIndex r.Vars "id")]⟩ ∧
      updateSnippet db json s .fresh r =
        ⟨Error .fresh (notFoundMessage (mapIndex r.Vars "id")) StatusNotFound, s,
          [.First (mapIndex r.Vars "id")]⟩ ∧
      deleteSnippet db json s .fresh r =
        ⟨Error .fresh (notFoundMessage (mapIndex r.Vars "id")) StatusNotFound, s,
          [.First (mapIndex r.Vars "id")]⟩ := by
  refine ⟨?_, ?_, ?_⟩
  · simp [getSnippet, h]
  · simp [updateSnippet, h]
  · simp [deleteSnippet, h]

/-- A `getSnippet` that answers 200 fetched a row and encoded it. -/
theorem getSnippet_ok (db : DB σ) (json : JSON) (s : σ) (r : Request)
    (h : (getSnippet db json s .fresh r).w.statusCode = 200) :
    ∃ y out, db.First s (mapIndex r.Vars "id") = .ok y ∧ json.Marshal y = .ok out ∧
      getSnippet db json s .fresh r =
        ⟨jsonResponse 200 out, s, [.First (mapIndex r.Vars "id")]⟩ := by
  cases hF : db.First s (mapIndex r.Vars "id") with
  | error e => simp [getSnippet, hF, Error_fresh_statusCode, StatusNotFound] at h
  | ok y =>
    cases hM : json.Marshal y with
    | error e =>
      simp [getSnippet, hF, hM, Error_fresh_statusCode, StatusInternalServerError] at h
    | ok out =>
      exact ⟨y, out, rfl, hM, by simp [getSnippet, hF, hM, Write_json_fresh, jsonResponse]⟩

/-- A `createSnippet` that answers 201 decoded the body, inserted the row and
encoded what the store returned. -/
theorem createSnippet_ok (db : DB σ) (json : JSON) (s : σ) (r : Request)
    (h : (createSnippet db json s .fresh r).w.statusCode = 201) :
    ∃ x y s1 out, Decode r.Body Snippet.zero = .ok x ∧ db.Create s x = (.ok y, s1) ∧
      json.Marshal y = .ok out ∧
      createSnippet db json s .fresh r = ⟨jsonResponse 201 out, s1, [.Create x]⟩ := by
  cases hD : Decode r.Body Snippet.zero with
  | error e => simp [createSnippet, hD, Error_fresh_statusCode, StatusBadRequest] at h
  | ok x =>
    rcases hC : db.Create s x with ⟨res, s1⟩
    cases res with
    | error e => simp [createSnippet, hD, hC, Error_fresh_statusCode, StatusBadRequest] at h
    | ok y =>
      cases hM : json.Marshal y with
      | error e =>
        simp [createSnippet, hD, hC, hM, Error_fresh_statusCode,
          StatusInternalServerError] at h
      | ok out =>
        exact ⟨x, y, s1, out, rfl, hC, hM, by
          simp [createSnippet, hD, hC, hM, Write_json_code_fresh, jsonResponse, StatusCreated]⟩

/-- An `updateSnippet` that answers 200 fetched the row,
decoded the body, updated the row and encoded what the store returned. -/
theorem updateSnippet_ok (db : DB σ) (json : JSON) (s : σ) (r : Request)
    (h : (updateSnippet db json s .fresh r).w.statusCode = 200) :
    ∃ y x y1 s1 out, db.First s (mapIndex r.Vars "id") = .ok y ∧
      Decode r.Body Snippet.zero = .ok x ∧ db.Updates s y x = (.ok y1, s1) ∧
      json.Marshal y1 = .ok out ∧
      updateSnippet db json s .fresh r =
        ⟨jsonResponse 200 out, s1, [.First (mapIndex r.Vars "id"), .Updates y x]⟩ := by
  cases hF : db.First s (mapIndex r.Vars "id") with
  | error e => simp [updateSnippet, hF, Error_fresh_statusCode, StatusNotFound,
        StatusBadRequest, StatusInternalServerError] at h
  | ok y =>
    cases hD : Decode r.Body Snippet.zero with
    | error e => simp [updateSnippet, hF, hD, Error_fresh_statusCode, StatusNotFound,
        StatusBadRequest, StatusInternalServerError] at h
    | ok x =>
      rcases hU : db.Updates s y x with ⟨res, s1⟩
      cases res with
      | error e => simp [updateSnippet, hF, hD, hU, Error_fresh_statusCode, StatusNotFound,
        StatusBadRequest, StatusInternalServerError] at h
      | ok y1 =>
        cases hM : json.Marshal y1 with
        | error e => simp [updateSnippet, hF, hD, hU, hM, Error_fresh_statusCode, StatusNotFound,
        StatusBadRequest, StatusInternalServerError] at h
        | ok out =>
          exact ⟨y, x, y1, s1, out, rfl, rfl, hU, hM, by
            simp [updateSnippet, hF, hD, hU, hM, Write_json_code_fresh, jsonResponse,
              StatusOK]⟩

/-- A `deleteSnippet` that answers 200 fetched the row,
deleted it and encoded the row as fetched. -/
theorem deleteSnippet_ok (db : DB σ) (json : JSON) (s : σ) (r : Request)
    (h : (deleteSnippet db json s .fresh r).w.statusCode = 200) :
    ∃ y s1 out, db.First s (mapIndex r.Vars "id") = .ok y ∧
      db.Delete s y = (.ok (), s1) ∧ json.Marshal y = .ok out ∧
      deleteSnippet db json s .fresh r =
        ⟨jsonResponse 200 out, s1, [.First (mapIndex r.Vars "id"), .Delete y]⟩ := by
  cases hF : db.First s (mapIndex r.Vars "id") with
  | error e => simp [deleteSnippet, hF, Error_fresh_statusCode, StatusNotFound,
        StatusBadRequest, StatusInternalServerError] at h
  | ok y =>
    rcases hD : db.Delete s y with ⟨res, s1⟩
    cases res with
    | error e => simp [deleteSnippet, hF, hD, Error_fresh_statusCode, StatusNotFound,
        StatusBadRequest, StatusInternalServerError] at h
    | ok u =>
      cases hM : json.Marshal y with
      | error e => simp [deleteSnippet, hF, hD, hM, Error_fresh_statusCode, StatusNotFound,
        StatusBadRequest, StatusInternalServerError] at h
      | ok out =>
        exact ⟨y, s1, out, rfl, hD, hM, by
          simp [deleteSnippet, hF, hD, hM, Write_json_fresh, jsonResponse]⟩

/-! ## The store -/

theorem lookup_some (s : Store) (n : Nat) (y : Snippet) (h : s.lookup n = some y) :
    y ∈ s.rows ∧ y.DeletedAt = none ∧ y.ID = n := by
  unfold Store.lookup at h
  have hp := List.find?_some h
  have hm := List.mem_of_find?_eq_some h
  simp [live] at hp
  exact ⟨hm, hp.1, hp.2⟩

theorem firstByID_mem (l : List Snippet) (y : Snippet) (h : firstByID l = some y) :
    y ∈ l := by
  induction l generalizing y with
  | nil => simp [firstByID] at h
  | cons r rs ih =>
    simp only [firstByID] at h
    cases hrs : firstByID rs with
    | none =>
      simp only [hrs, Option.some.injEq] at h
      simp [h]
    | some b =>
      simp only [hrs] at h
      by_cases hb : b.ID < r.ID
      · simp only [hb, if_true, Option.some.injEq] at h
        subst h
        exact List.mem_cons_of_mem _ (ih b hrs)
      · simp only [hb, if_false, Option.some.injEq] at h
        simp [h]

/-- The fetch of a number is the lookup of its key. -/
theorem Get_eq_ok (sql : SQL) (s : Store) (id : String) (y : Snippet)
    (hnum : isNumber id = true) :
    Store.Get sql s id = .ok y ↔ ∃ n, parseID id = some n ∧ s.lookup n = some y := by
  simp only [Store.Get, parseID, hnum, if_true]
  cases hl : s.lookup (numberValue id) with
  | none => simp [hl]
  | some r => simp [hl]

/-- Whatever the string, a row the fetch returns is a live row of the store. -/
theorem Get_live (sql : SQL) (s : Store) (id : String) (y : Snippet)
    (h : Store.Get sql s id = .ok y) : y ∈ s.rows ∧ y.DeletedAt = none := by
  unfold Store.Get at h
  cases hnum : isNumber id with
  | true =>
    simp only [hnum, if_true] at h
    cases hl : s.lookup (numberValue id) with
    | none => simp [hl] at h
    | some r =>
      simp only [hl, Except.ok.injEq] at h
      subst h
      exact ⟨(lookup_some s _ _ hl).1, (lookup_some s _ _ hl).2.1⟩
  | false =>
    simp only [hnum, Bool.false_eq_true, if_false] at h
    cases hc : inlineCondition sql id with
    | error e => simp [hc] at h
    | ok p =>
      simp only [hc] at h
      cases hf : firstByID (s.rows.filter fun r => live r && p r) with
      | none => simp [hf] at h
      | some r =>
        simp only [hf, Except.ok.injEq] at h
        subst h
        have hm := List.mem_filter.1 (firstByID_mem _ _ hf)
        have hlive : live r = true := by
          have := hm.2
          simp only [Bool.and_eq_true] at this
          exact this.1
        exact ⟨hm.1, by simpa [live] using hlive⟩

/-- After a soft delete of key `n` the live rows are the former live rows
without those of key `n`. -/
theorem filter_live_softDelete (rows : List Snippet) (n now : Nat) :
    (rows.map fun x =>
        if live x && x.ID == n then { x with DeletedAt := some now } else x).filter live =
      (rows.filter live).filter (fun x => x.ID != n) := by
  induction rows with
  | nil => rfl
  | cons x xs ih =>
    by_cases hl : live x = true <;> by_cases hn : x.ID = n <;>
      simp_all [List.filter_cons, live]

/-- After a soft delete of key `n` no live row has key `n`. -/
theorem find_softDelete (rows : List Snippet) (n now : Nat) :
    (rows.map fun x =>
        if live x && x.ID == n then { x with DeletedAt := some now } else x).find?
      (fun r => live r && r.ID == n) = none := by
  induction rows with
  | nil => rfl
  | cons x xs ih =>
    by_cases hl : live x = true <;> by_cases hn : x.ID = n <;>
      simp_all [List.find?_cons, live]

/-- After an update of key `n` the live row of key `n` is the former one, merged. -/
theorem find_merge (rows : List Snippet) (n now : Nat) (patch : Snippet) :
    (rows.map fun x =>
        if live x && x.ID == n then mergeNonZero x patch now else x).find?
      (fun r => live r && r.ID == n) =
      (rows.find? (fun r => live r && r.ID == n)).map fun x => mergeNonZero x patch now := by
  induction rows with
  | nil => rfl
  | cons x xs ih =>
    by_cases hl : live x = true <;> by_cases hn : x.ID = n <;>
      simp_all [List.find?_cons, live, mergeNonZero]

/-- An update leaves the key and the creation time of every row, and every row
of another key entirely, as they were. -/
theorem forall₂_merge (rows : List Snippet) (n now : Nat) (patch : Snippet) :
    List.Forall₂ (fun x x1 => x1.ID = x.ID ∧ x1.CreatedAt = x.CreatedAt ∧
        x1.DeletedAt = x.DeletedAt ∧ (x.ID ≠ n → x1 = x))
      rows (rows.map fun x => if live x && x.ID == n then mergeNonZero x patch now else x) := by
  induction rows with
  | nil => exact List.Forall₂.nil
  | cons x xs ih =>
    refine List.Forall₂.cons ?_ ih
    by_cases hl : live x = true <;> by_cases hn : x.ID = n <;> simp_all [mergeNonZero]

/-- On a well-formed store the next id is not in use. -/
theorem lookup_nextID (s : Store) (h : s.WF) : s.lookup s.nextID = none := by
  unfold Store.lookup
  rw [List.find?_eq_none]
  intro x hx
  have := h x hx
  simp
  intro _
  omega

theorem WF_empty : Store.empty.WF := by
  intro r hr
  simp [Store.empty] at hr

theorem WF_Create (s : Store) (v : Snippet) (h : s.WF) : (Store.Create s v).2.WF := by
  intro r hr
  simp only [Store.Create, List.mem_append, List.mem_singleton] at hr ⊢
  rcases hr with hr | hr
  · have := h r hr
    omega
  · subst hr
    simp

theorem WF_Update (s : Store) (model patch : Snippet) (h : s.WF) :
    (Store.Update s model patch).2.WF := by
  unfold Store.Update
  cases s.lookup model.ID with
  | none => exact h
  | some y =>
    intro r hr
    simp only [List.mem_map] at hr
    obtain ⟨x, hx, rfl⟩ := hr
    have := h x hx
    by_cases hc : (live x && x.ID == model.ID) = true <;> simp [hc, mergeNonZero] <;> exact this

theorem WF_Delete (s : Store) (v : Snippet) (h : s.WF) : (Store.Delete s v).2.WF := by
  unfold Store.Delete
  cases s.lookup v.ID with
  | none => exact h
  | some y =>
    intro r hr
    simp only [List.mem_map] at hr
    obtain ⟨x, hx, rfl⟩ := hr
    have := h x hx
    by_cases hc : (live x && x.ID == v.ID) = true <;> simp [hc] <;> exact this

theorem Decode_zero (b : RequestBody) (x : Snippet) (h : Decode b Snippet.zero = .ok x) :
    ∃ t c, b = .object t c ∧
      x = { Snippet.zero with Title := t.getD "", Body := c.getD "" } := by
  cases b with
  | malformed e => simp [Decode] at h
  | object t c =>
    simp only [Decode, Except.ok.injEq] at h
    exact ⟨t, c, rfl, by rw [← h]; rfl⟩

/-- A successful `updateSnippet` for a number on the store: the row fetched, the row returned
and stored, and the rows of the store afterwards. -/
theorem updateSnippet_gorm (sql : SQL) (json : JSON) (s : Store) (r : Request)
    (t c : Option String) (hb : r.Body = .object t c)
    (hnum : isNumber (mapIndex r.Vars "id") = true)
    (h : (updateSnippet (gorm sql) json s .fresh r).w.statusCode = 200) :
    ∃ y out, (gorm sql).First s (mapIndex r.Vars "id") = .ok y ∧
      json.Marshal (mergeNonZero y
        { Snippet.zero with Title := t.getD "", Body := c.getD "" } s.now) = .ok out ∧
      updateSnippet (gorm sql) json s .fresh r =
        ⟨jsonResponse 200 out,
         { s with
           rows := s.rows.map fun x =>
             if live x && x.ID == y.ID then
               mergeNonZero x { Snippet.zero with Title := t.getD "", Body := c.getD "" } s.now
             else x
           now := s.now + 1 },
         [.First (mapIndex r.Vars "id"),
          .Updates y { Snippet.zero with Title := t.getD "", Body := c.getD "" }]⟩ ∧
      (gorm sql).First (updateSnippet (gorm sql) json s .fresh r).db (mapIndex r.Vars "id") =
        .ok (mergeNonZero y
          { Snippet.zero with Title := t.getD "", Body := c.getD "" } s.now) := by
  obtain ⟨y, x, y1, s1, out, hF, hD, hU, hM, heq⟩ := updateSnippet_ok (gorm sql) json s r h
  obtain ⟨n, hp, hl⟩ := (Get_eq_ok sql s _ y hnum).1 hF
  have hid := (lookup_some s n y hl).2.2
  rw [hb] at hD
  obtain ⟨t1, c1, hbb, hx⟩ := Decode_zero _ x hD
  simp only [RequestBody.object.injEq] at hbb
  obtain ⟨rfl, rfl⟩ := hbb
  subst hx
  have hl1 : s.lookup y.ID = some y := by rw [hid]; exact hl
  have hU1 : Store.Update s y
      { Snippet.zero with Title := t.getD "", Body := c.getD "" } = (.ok y1, s1) := hU
  simp only [Store.Update, hl1, Prod.mk.injEq, Except.ok.injEq] at hU1
  obtain ⟨rfl, rfl⟩ := hU1
  refine ⟨y, out, hF, hM, heq, ?_⟩
  rw [heq]
  apply (Get_eq_ok sql _ _ _ hnum).2
  refine ⟨n, hp, ?_⟩
  simp only [Store.lookup, hid]
  rw [find_merge]
  have : s.rows.find? (fun r => live r && r.ID == n) = some y := hl
  rw [this]
  rfl

/-- A successful `deleteSnippet` for a number on the store: the row fetched and the rows of
the store afterwards. -/
theorem deleteSnippet_gorm (sql : SQL) (json : JSON) (s : Store) (r : Request)
    (hnum : isNumber (mapIndex r.Vars "id") = true)
    (h : (deleteSnippet (gorm sql) json s .fresh r).w.statusCode = 200) :
    ∃ y out, (gorm sql).First s (mapIndex r.Vars "id") = .ok y ∧
      parseID (mapIndex r.Vars "id") = some y.ID ∧ y.DeletedAt = none ∧
      json.Marshal y = .ok out ∧
      deleteSnippet (gorm sql) json s .fresh r =
        ⟨jsonResponse 200 out,
         { s with
           rows := s.rows.map fun x =>
             if live x && x.ID == y.ID then { x with DeletedAt := some s.now } else x
           now := s.now + 1 },
         [.First (mapIndex r.Vars "id"), .Delete y]⟩ := by
  obtain ⟨y, s1, out, hF, hD, hM, heq⟩ := deleteSnippet_ok (gorm sql) json s r h
  obtain ⟨n, hp, hl⟩ := (Get_eq_ok sql s _ y hnum).1 hF
  obtain ⟨_, hlive, hid⟩ := lookup_some s n y hl
  have hl1 : s.lookup y.ID = some y := by rw [hid]; exact hl
  have hD1 : Store.Delete s y = (.ok (), s1) := hD
  simp only [Store.Delete, hl1, Prod.mk.injEq, true_and] at hD1
  subst hD1
  exact ⟨y, out, hF, by rw [hid]; exact hp, hlive, hM, heq⟩

/-! ## Store states in reach -/

theorem getSnippets_db (db : DB σ) (json : JSON) (s : σ) (w : ResponseWriter) (r : Request) :
    (getSnippets db json s w r).db = s := by
  unfold getSnippets
  split
  · rfl
  · split <;> rfl

theorem getSnippet_db (db : DB σ) (json : JSON) (s : σ) (w : ResponseWriter) (r : Request) :
    (getSnippet db json s w r).db = s := by
  unfold getSnippet
  dsimp only
  split
  · rfl
  · split <;> rfl

theorem createSnippet_db (db : DB σ) (json : JSON) (s : σ) (w : ResponseWriter) (r : Request) :
    (createSnippet db json s w r).db = s ∨
      ∃ x, (createSnippet db json s w r).db = (db.Create s x).2 := by
  cases hD : Decode r.Body Snippet.zero with
  | error e => exact Or.inl (by simp [createSnippet, hD])
  | ok x =>
    refine Or.inr ⟨x, ?_⟩
    rcases hC : db.Create s x with ⟨res, s1⟩
    cases res with
    | error e => simp [createSnippet, hD, hC]
    | ok y => cases hM : json.Marshal y <;> simp [createSnippet, hD, hC, hM]

theorem updateSnippet_db (db : DB σ) (json : JSON) (s : σ) (w : ResponseWriter) (r : Request) :
    (updateSnippet db json s w r).db = s ∨
      ∃ y x, (updateSnippet db json s w r).db = (db.Updates s y x).2 := by
  cases hF : db.First s (mapIndex r.Vars "id") with
  | error e => exact Or.inl (by simp [updateSnippet, hF])
  | ok y =>
    cases hD : Decode r.Body Snippet.zero with
    | error e => exact Or.inl (by simp [updateSnippet, hF, hD])
    | ok x =>
      refine Or.inr ⟨y, x, ?_⟩
      rcases hU : db.Updates s y x with ⟨res, s1⟩
      cases res with
      | error e => simp [updateSnippet, hF, hD, hU]
      | ok y1 => cases hM : json.Marshal y1 <;> simp [updateSnippet, hF, hD, hU, hM]

theorem deleteSnippet_db (db : DB σ) (json : JSON) (s : σ) (w : ResponseWriter) (r : Request) :
    (deleteSnippet db json s w r).db = s ∨
      ∃ y, (deleteSnippet db json s w r).db = (db.Delete s y).2 := by
  cases hF : db.First s (mapIndex r.Vars "id") with
  | error e => exact Or.inl (by simp [deleteSnippet, hF])
  | ok y =>
    refine Or.inr ⟨y, ?_⟩
    rcases hD : db.Delete s y with ⟨res, s1⟩
    cases res with
    | error e => simp [deleteSnippet, hF, hD]
    | ok u => cases hM : json.Marshal y <;> simp [deleteSnippet, hF, hD, hM]

/-- Every store state in reach keeps the ids in use below the next id. -/
theorem WF_of_Reachable (sql : SQL) (json : JSON) (s : Store)
    (h : Reachable sql json s) : s.WF := by
  induction h with
  | empty => exact WF_empty
  | getSnippets s r _ ih => rw [getSnippets_db]; exact ih
  | getSnippet s r _ ih => rw [getSnippet_db]; exact ih
  | createSnippet s r _ ih =>
    rcases createSnippet_db (gorm sql) json s .fresh r with h | ⟨x, h⟩
    · rw [h]; exact ih
    · rw [h]; exact WF_Create s x ih
  | updateSnippet s r _ ih =>
    rcases updateSnippet_db (gorm sql) json s .fresh r with h | ⟨y, x, h⟩
    · rw [h]; exact ih
    · rw [h]; exact WF_Update s y x ih
  | deleteSnippet s r _ ih =>
    rcases deleteSnippet_db (gorm sql) json s .fresh r with h | ⟨y, h⟩
    · rw [h]; exact ih
    · rw [h]; exact WF_Delete s y ih

/-! ## Error translation -/

/-- C1: when the fetch-by-id fails, `getSnippet`, `updateSnippet` and
`deleteSnippet` all answer 404 with the plain-text message
`Snippet with ID: <id> not found` (the path string verbatim, followed by the
newline of `http.Error`), leave the store as it was, and the only call made
against the store is that fetch: no update and no delete. -/
theorem byID_not_found (db : DB σ) (json : JSON) (s : σ) (r : Request) (e : String)
    (h : db.First s (mapIndex r.Vars "id") = .error e) :
    (getSnippet db json s .fresh r =
        ⟨Error .fresh (notFoundMessage (mapIndex r.Vars "id")) StatusNotFound, s,
          [.First (mapIndex r.Vars "id")]⟩ ∧
      updateSnippet db json s .fresh r =
        ⟨Error .fresh (notFoundMessage (mapIndex r.Vars "id")) StatusNotFound, s,
          [.First (mapIndex r.Vars "id")]⟩ ∧
      deleteSnippet db json s .fresh r =
        ⟨Error .fresh (notFoundMessage (mapIndex r.Vars "id")) StatusNotFound, s,
          [.First (mapIndex r.Vars "id")]⟩) ∧
    (Error .fresh (notFoundMessage (mapIndex r.Vars "id")) StatusNotFound).statusCode = 404 ∧
    (Error .fresh (notFoundMessage (mapIndex r.Vars "id")) StatusNotFound).contentType =
      some "text/plain; charset=utf-8" ∧
    (Error .fresh (notFoundMessage (mapIndex r.Vars "id")) StatusNotFound).body =
      "Snippet with ID: " ++ mapIndex r.Vars "id" ++ " not found" ++ "\n" := by
  refine ⟨handlers_of_First_error db json s r e h, ?_, ?_, ?_⟩
  · simp [Error_fresh_statusCode, StatusNotFound]
  · exact Error_fresh_contentType _ _
  · simp [Error_fresh_body, notFoundMessage]

theorem byID_not_found_witness :
    (gorm sqlFragment).First store1 (mapIndex (request "999" (.object none none)).Vars "id") =
        .error recordNotFound ∧
      (getSnippet (gorm sqlFragment) textJSON store1 .fresh (request "999" (.object none none))).w.body =
        "Snippet with ID: 999 not found\n" ∧
      (deleteSnippet (gorm sqlFragment) textJSON store1 .fresh (request "999" (.object none none))).calls =
        [.First "999"] :=
  have h := byID_not_found (gorm sqlFragment) textJSON store1 (request "999" (.object none none))
    recordNotFound rfl
  ⟨rfl, by rw [h.1.1]; decide, by rw [h.1.2.2]; decide⟩

/-- C8: when the request body does not decode, `createSnippet` (on any store)
and `updateSnippet` (when the addressed row is found) answer 400 with the
decoder's message as plain text; the store is left as it was and no insert or
update is issued (`createSnippet` makes no store call at all, `updateSnippet`
only the fetch). -/
theorem decode_failure (db : DB σ) (json : JSON) (s : σ) (r : Request) (e : String)
    (h : Decode r.Body Snippet.zero = .error e) :
    createSnippet db json s .fresh r = ⟨Error .fresh e StatusBadRequest, s, []⟩ ∧
    (∀ y, db.First s (mapIndex r.Vars "id") = .ok y →
      updateSnippet db json s .fresh r =
        ⟨Error .fresh e StatusBadRequest, s, [.First (mapIndex r.Vars "id")]⟩) ∧
    (Error .fresh e StatusBadRequest).statusCode = 400 ∧
    (Error .fresh e StatusBadRequest).contentType = some "text/plain; charset=utf-8" ∧
    (Error .fresh e StatusBadRequest).body = e ++ "\n" := by
  refine ⟨?_, ?_, ?_, ?_, ?_⟩
  · simp [createSnippet, h]
  · intro y hy
    simp [updateSnippet, hy, h]
  · simp [Error_fresh_statusCode, StatusBadRequest]
  · exact Error_fresh_contentType _ _
  · exact Error_fresh_body _ _

theorem decode_failure_witness :
    Decode (request "1" (.malformed "unexpected EOF")).Body Snippet.zero =
        .error "unexpected EOF" ∧
      (createSnippet (gorm sqlFragment) textJSON store1 .fresh
          (request "1" (.malformed "unexpected EOF"))).db = store1 ∧
      (updateSnippet (gorm sqlFragment) textJSON store1 .fresh
          (request "1" (.malformed "unexpected EOF"))).w.body = "unexpected EOF\n" ∧
      (updateSnippet (gorm sqlFragment) textJSON store1 .fresh
          (request "1" (.malformed "unexpected EOF"))).db = store1 :=
  have h := decode_failure (gorm sqlFragment) textJSON store1 (request "1" (.malformed "unexpected EOF"))
    "unexpected EOF" rfl
  ⟨rfl, by rw [h.1], by rw [h.2.1 _ rfl]; decide, by rw [h.2.1 _ rfl]⟩

/-- C9: an error of the store on the insert of `createSnippet` or on the update
of `updateSnippet` is answered with 400, an error on the list query of
`getSnippets` with 404; each time the response is the error response carrying
the store's message as plain text (followed by the newline of `http.Error`),
so no JSON body is written. -/
theorem store_error (db : DB σ) (json : JSON) (s : σ) (r : Request) (e : String) :
    (∀ x s1, Decode r.Body Snippet.zero = .ok x → db.Create s x = (.error e, s1) →
      createSnippet db json s .fresh r = ⟨Error .fresh e StatusBadRequest, s1, [.Create x]⟩) ∧
    (∀ y x s1, db.First s (mapIndex r.Vars "id") = .ok y →
      Decode r.Body Snippet.zero = .ok x → db.Updates s y x = (.error e, s1) →
      updateSnippet db json s .fresh r =
        ⟨Error .fresh e StatusBadRequest, s1,
          [.First (mapIndex r.Vars "id"), .Updates y x]⟩) ∧
    (db.Find s = .error e →
      getSnippets db json s .fresh r = ⟨Error .fresh e StatusNotFound, s, [.Find]⟩) ∧
    (Error .fresh e StatusBadRequest).statusCode = 400 ∧
    (Error .fresh e StatusNotFound).statusCode = 404 ∧
    (∀ code, (Error .fresh e code).contentType = some "text/plain; charset=utf-8" ∧
      (Error .fresh e code).body = e ++ "\n") := by
  refine ⟨?_, ?_, ?_, ?_, ?_, ?_⟩
  · intro x s1 hx hc
    simp [createSnippet, hx, hc]
  · intro y x s1 hy hx hu
    simp [updateSnippet, hy, hx, hu]
  · intro hf
    simp [getSnippets, hf]
  · simp [Error_fresh_statusCode, StatusBadRequest]
  · simp [Error_fresh_statusCode, StatusNotFound]
  · intro code
    exact ⟨Error_fresh_contentType _ _, Error_fresh_body _ _⟩

theorem store_error_witness :
    (createSnippet (readOnlyDB "database is locked") textJSON () .fresh
        (request "1" (.object (some "a") none))).w =
      Error .fresh "database is locked" StatusBadRequest ∧
    (updateSnippet (readOnlyDB "database is locked") textJSON () .fresh
        (request "1" (.object (some "a") none))).w =
      Error .fresh "database is locked" StatusBadRequest ∧
    (getSnippets (brokenDB "database is locked") textJSON () .fresh
        (request "1" (.object (some "a") none))).w =
      Error .fresh "database is locked" StatusNotFound :=
  ⟨by rw [(store_error (readOnlyDB "database is locked") textJSON ()
        (request "1" (.object (some "a") none)) "database is locked").1 _ _ rfl rfl],
   by rw [(store_error (readOnlyDB "database is locked") textJSON ()
        (request "1" (.object (some "a") none)) "database is locked").2.1 _ _ _ rfl rfl rfl],
   by rw [(store_error (brokenDB "database is locked") textJSON ()
        (request "1" (.object (some "a") none)) "database is locked").2.2.1 rfl]⟩

/-! ## Success responses -/

/-- C2: on every request on which a handler meets no store, decode or
serialization error, the response has `Content-Type: application/json`; the
status is 201 for `createSnippet` and 200 for `getSnippets`, `getSnippet`,
`updateSnippet` and `deleteSnippet`. -/
theorem success_status (db : DB σ) (json : JSON) (s : σ) (r : Request) :
    (∀ l out, db.Find s = .ok l → json.MarshalSlice l = .ok out →
      (getSnippets db json s .fresh r).w.statusCode = 200 ∧
      (getSnippets db json s .fresh r).w.contentType = some "application/json") ∧
    (∀ y out, db.First s (mapIndex r.Vars "id") = .ok y → json.Marshal y = .ok out →
      (getSnippet db json s .fresh r).w.statusCode = 200 ∧
      (getSnippet db json s .fresh r).w.contentType = some "application/json") ∧
    (∀ x y s1 out, Decode r.Body Snippet.zero = .ok x → db.Create s x = (.ok y, s1) →
      json.Marshal y = .ok out →
      (createSnippet db json s .fresh r).w.statusCode = 201 ∧
      (createSnippet db json s .fresh r).w.contentType = some "application/json") ∧
    (∀ y x y1 s1 out, db.First s (mapIndex r.Vars "id") = .ok y →
      Decode r.Body Snippet.zero = .ok x → db.Updates s y x = (.ok y1, s1) →
      json.Marshal y1 = .ok out →
      (updateSnippet db json s .fresh r).w.statusCode = 200 ∧
      (updateSnippet db json s .fresh r).w.contentType = some "application/json") ∧
    (∀ y u s1 out, db.First s (mapIndex r.Vars "id") = .ok y →
      db.Delete s y = (.ok u, s1) → json.Marshal y = .ok out →
      (deleteSnippet db json s .fresh r).w.statusCode = 200 ∧
      (deleteSnippet db json s .fresh r).w.contentType = some "application/json") := by
  refine ⟨?_, ?_, ?_, ?_, ?_⟩
  · intro l out hf hm
    simp [getSnippets, hf, hm, Write_json_fresh, ResponseWriter.statusCode,
      ResponseWriter.contentType, List.lookup]
  · intro y out hy hm
    simp [getSnippet, hy, hm, Write_json_fresh, ResponseWriter.statusCode,
      ResponseWriter.contentType, List.lookup]
  · intro x y s1 out hx hc hm
    simp [createSnippet, hx, hc, hm, Write_json_code_fresh, ResponseWriter.statusCode,
      ResponseWriter.contentType, List.lookup, StatusCreated]
  · intro y x y1 s1 out hy hx hu hm
    simp [updateSnippet, hy, hx, hu, hm, Write_json_code_fresh, ResponseWriter.statusCode,
      ResponseWriter.contentType, List.lookup, StatusOK]
  · intro y u s1 out hy hd hm
    simp [deleteSnippet, hy, hd, hm, Write_json_fresh, ResponseWriter.statusCode,
      ResponseWriter.contentType, List.lookup]

theorem success_status_witness :
    (getSnippets (gorm sqlFragment) textJSON store1 .fresh
        (request "1" (.object none (some "x2")))).w.statusCode = 200 ∧
    (getSnippet (gorm sqlFragment) textJSON store1 .fresh
        (request "1" (.object none (some "x2")))).w.statusCode = 200 ∧
    (createSnippet (gorm sqlFragment) textJSON store1 .fresh
        (request "1" (.object none (some "x2")))).w.statusCode = 201 ∧
    (updateSnippet (gorm sqlFragment) textJSON store1 .fresh
        (request "1" (.object none (some "x2")))).w.contentType = some "application/json" ∧
    (deleteSnippet (gorm sqlFragment) textJSON store1 .fresh
        (request "1" (.object none (some "x2")))).w.contentType = some "application/json" :=
  have h := success_status (gorm sqlFragment) textJSON store1 (request "1" (.object none (some "x2")))
  ⟨(h.1 _ _ rfl rfl).1, (h.2.1 _ _ rfl rfl).1, (h.2.2.1 _ _ _ _ rfl rfl rfl).1,
   (h.2.2.2.1 _ _ _ _ _ rfl rfl rfl rfl).2, (h.2.2.2.2 _ _ _ _ rfl rfl rfl).2⟩

/-! ## Path strings that are not decimal numbers -/

/-- C7: a `deleteSnippet` that succeeds answers 200 with the row as it was
before the delete: its response is the response `getSnippet` gives for the same
request on the store before the delete, and the row it encodes is the one the
fetch returned, with `deleted_at` unset. -/
theorem delete_returns_fetched (sql : SQL) (json : JSON) (s : Store) (r : Request)
    (h : (deleteSnippet (gorm sql) json s .fresh r).w.statusCode = 200) :
    (deleteSnippet (gorm sql) json s .fresh r).w = (getSnippet (gorm sql) json s .fresh r).w ∧
    (getSnippet (gorm sql) json s .fresh r).w.statusCode = 200 ∧
    ∃ y, (gorm sql).First s (mapIndex r.Vars "id") = .ok y ∧ y.DeletedAt = none ∧
      json.Marshal y = .ok (deleteSnippet (gorm sql) json s .fresh r).w.body := by
  obtain ⟨y, s1, out, hF, _, hM, heq⟩ := deleteSnippet_ok (gorm sql) json s r h
  have hlive := (Get_live sql s _ y hF).2
  have hg : getSnippet (gorm sql) json s .fresh r =
      ⟨jsonResponse 200 out, s, [.First (mapIndex r.Vars "id")]⟩ := by
    simp [getSnippet, hF, hM, Write_json_fresh, jsonResponse]
  rw [heq, hg]
  exact ⟨rfl, rfl, y, hF, hlive, hM⟩

theorem delete_returns_fetched_witness :
    (deleteSnippet (gorm sqlFragment) textJSON store1 .fresh
        (request "1" (.object none none))).w.statusCode = 200 ∧
      (deleteSnippet (gorm sqlFragment) textJSON store1 .fresh
        (request "1" (.object none none))).w =
        (getSnippet (gorm sqlFragment) textJSON store1 .fresh
          (request "1" (.object none none))).w :=
  ⟨by decide,
   (delete_returns_fetched sqlFragment textJSON store1 (request "1" (.object none none))
     (by decide)).1⟩

/-- C6: after a `deleteSnippet` that succeeds for the id `i` (a number in the
path), a `getSnippet` for `i` answers 404, and the list `getSnippets` encodes is
the former list without the rows of that id: no snippet with id `i` is in it
and every other snippet listed before is still listed. -/
theorem delete_then_read (sql : SQL) (json : JSON) (s : Store) (r : Request)
    (hnum : isNumber (mapIndex r.Vars "id") = true)
    (h : (deleteSnippet (gorm sql) json s .fresh r).w.statusCode = 200) :
    ∃ y l, (gorm sql).First s (mapIndex r.Vars "id") = .ok y ∧
      parseID (mapIndex r.Vars "id") = some y.ID ∧
      (gorm sql).Find s = .ok l ∧
      (∀ r1, mapIndex r1.Vars "id" = mapIndex r.Vars "id" →
        (getSnippet (gorm sql) json (deleteSnippet (gorm sql) json s .fresh r).db .fresh r1).w =
          Error .fresh (notFoundMessage (mapIndex r.Vars "id")) StatusNotFound) ∧
      (Error .fresh (notFoundMessage (mapIndex r.Vars "id")) StatusNotFound).statusCode = 404 ∧
      (gorm sql).Find (deleteSnippet (gorm sql) json s .fresh r).db =
        .ok (l.filter fun x => x.ID != y.ID) ∧
      (∀ r1 out, json.MarshalSlice (l.filter fun x => x.ID != y.ID) = .ok out →
        (getSnippets (gorm sql) json (deleteSnippet (gorm sql) json s .fresh r).db .fresh r1).w =
          jsonResponse 200 out) ∧
      (∀ x ∈ l.filter fun x => x.ID != y.ID, x.ID ≠ y.ID) ∧
      (∀ x ∈ l, x.ID ≠ y.ID → x ∈ l.filter fun x => x.ID != y.ID) := by
  obtain ⟨y, out, hF, hp, _, _, heq⟩ := deleteSnippet_gorm sql json s r hnum h
  have hn : numberValue (mapIndex r.Vars "id") = y.ID := by
    simpa [parseID, hnum] using hp
  have hfind : (gorm sql).Find (deleteSnippet (gorm sql) json s .fresh r).db =
      .ok ((s.rows.filter live).filter fun x => x.ID != y.ID) := by
    rw [heq]
    show Store.List _ = _
    simp only [Store.List, filter_live_softDelete]
  refine ⟨y, s.rows.filter live, hF, hp, rfl, ?_, ?_, hfind, ?_, ?_, ?_⟩
  · intro r1 hr1
    have hmiss : (gorm sql).First (deleteSnippet (gorm sql) json s .fresh r).db
        (mapIndex r1.Vars "id") = .error recordNotFound := by
      rw [heq, hr1]
      show Store.Get sql _ _ = _
      simp only [Store.Get, hnum, if_true, hn, Store.lookup, find_softDelete]
    rw [(handlers_of_First_error (gorm sql) json _ r1 recordNotFound hmiss).1, hr1]
  · simp [Error_fresh_statusCode, StatusNotFound]
  · intro r1 out1 hm
    simp only [getSnippets, hfind, hm, Write_json_fresh, jsonResponse]
  · intro x hx
    simpa using (List.mem_filter.1 hx).2
  · intro x hx hne
    exact List.mem_filter.2 ⟨hx, by simpa using hne⟩

theorem delete_then_read_witness :
    isNumber (mapIndex (request "1" (.object none none)).Vars "id") = true ∧
      (deleteSnippet (gorm sqlFragment) textJSON store1 .fresh
        (request "1" (.object none none))).w.statusCode = 200 ∧
      ∃ y l, (gorm sqlFragment).First store1 "1" = .ok y ∧
        (gorm sqlFragment).Find store1 = .ok l ∧
        (gorm sqlFragment).Find (deleteSnippet (gorm sqlFragment) textJSON store1 .fresh
          (request "1" (.object none none))).db = .ok (l.filter fun x => x.ID != y.ID) :=
  ⟨by decide, by decide,
   let ⟨y, l, hF, _, hl, _, _, hf, _⟩ :=
     delete_then_read sqlFragment textJSON store1 (request "1" (.object none none))
       (by decide) (by decide)
   ⟨y, l, hF, hl, hf⟩⟩

/-! ## Create, then read -/

/-- C3: on a store whose ids in use are below the next id, when `createSnippet`
succeeds and returns the snippet `y`, a `getSnippet` that follows with the id of
`y` in the path succeeds with status 200 and returns a snippet with the title,
the body and the `created_at` of `y`. -/
theorem create_then_get (sql : SQL) (json : JSON) (s : Store) (r : Request) (hwf : s.WF)
    (h : (createSnippet (gorm sql) json s .fresh r).w.statusCode = 201) :
    ∃ x y, Decode r.Body Snippet.zero = .ok x ∧
      (gorm sql).Create s x = (.ok y, (createSnippet (gorm sql) json s .fresh r).db) ∧
      json.Marshal y = .ok (createSnippet (gorm sql) json s .fresh r).w.body ∧
      ∀ r1, mapIndex r1.Vars "id" = formatID y.ID →
        ∃ g, (gorm sql).First (createSnippet (gorm sql) json s .fresh r).db (mapIndex r1.Vars "id") = .ok g ∧
          json.Marshal g =
            .ok (getSnippet (gorm sql) json (createSnippet (gorm sql) json s .fresh r).db .fresh r1).w.body ∧
          (getSnippet (gorm sql) json (createSnippet (gorm sql) json s .fresh r).db .fresh r1).w.statusCode
            = 200 ∧
          (getSnippet (gorm sql) json (createSnippet (gorm sql) json s .fresh r).db .fresh r1).w.contentType
            = some "application/json" ∧
          g.Title = y.Title ∧ g.Body = y.Body ∧ g.CreatedAt = y.CreatedAt := by
  obtain ⟨x, y, s1, out, hD, hC, hM, heq⟩ := createSnippet_ok (gorm sql) json s r h
  obtain ⟨t, c, _, hx⟩ := Decode_zero _ x hD
  have hC1 : Store.Create s x = (.ok y, s1) := hC
  simp only [Store.Create, Prod.mk.injEq, Except.ok.injEq] at hC1
  obtain ⟨hy, hs1⟩ := hC1
  rw [heq]
  refine ⟨x, y, hD, hC, hM, ?_⟩
  intro r1 hr1
  have hF : (gorm sql).First s1 (mapIndex r1.Vars "id") = .ok y := by
    rw [hr1]
    have hnum : isNumber (formatID y.ID) = true := by
      have := parseID_formatID y.ID
      by_contra hc
      simp [parseID, hc] at this
    apply (Get_eq_ok sql _ _ _ hnum).2
    refine ⟨y.ID, parseID_formatID _, ?_⟩
    have hnone := lookup_nextID s hwf
    unfold Store.lookup at hnone
    rw [← hs1, ← hy]
    simp only [Store.lookup, List.find?_append, hnone, Option.none_or]
    subst hx
    simp [List.find?_cons, live, Snippet.zero]
  refine ⟨y, hF, ?_, ?_, ?_, rfl, rfl, rfl⟩ <;>
    simp [getSnippet, hF, hM, Write_json_fresh, ResponseWriter.statusCode,
      ResponseWriter.contentType, List.lookup]

theorem create_then_get_witness :
    store1.WF ∧
      (createSnippet (gorm sqlFragment) textJSON store1 .fresh
        (request "" (.object (some "b") (some "y")))).w.statusCode = 201 ∧
      ∃ y, textJSON.Marshal y = .ok (createSnippet (gorm sqlFragment) textJSON store1 .fresh
          (request "" (.object (some "b") (some "y")))).w.body ∧
        ∀ r1 : Request, mapIndex r1.Vars "id" = formatID y.ID →
          ∃ g, (gorm sqlFragment).First (createSnippet (gorm sqlFragment) textJSON store1 .fresh
              (request "" (.object (some "b") (some "y")))).db (mapIndex r1.Vars "id") = .ok g ∧
            g.Title = y.Title ∧ g.Body = y.Body ∧ g.CreatedAt = y.CreatedAt :=
  have hwf : store1.WF := by simp [Store.WF, store1]
  ⟨hwf, by decide,
   let ⟨_, y, _, _, hm, hget⟩ :=
     create_then_get sqlFragment textJSON store1 (request "" (.object (some "b") (some "y"))) hwf
       (by decide)
   ⟨y, hm, fun r1 h1 =>
     let ⟨g, hg, _, _, _, ht, hb, hc⟩ := hget r1 h1
     ⟨g, hg, ht, hb, hc⟩⟩⟩

/-! ## Update -/

/-- C5: after an `updateSnippet` that succeeds on the id of a snippet (a number
in the path), every payload field absent from
the patch body has its former value in the snippet returned, which is also the
row now stored under the id; the id and `created_at` of that row are as before;
and in the store every row keeps its id, `created_at` and `deleted_at`, and every
row of another id is unchanged. -/
theorem update_frame (sql : SQL) (json : JSON) (s : Store) (r : Request)
    (t c : Option String)
    (hb : r.Body = .object t c) (hnum : isNumber (mapIndex r.Vars "id") = true)
    (h : (updateSnippet (gorm sql) json s .fresh r).w.statusCode = 200) :
    ∃ y y1, (gorm sql).First s (mapIndex r.Vars "id") = .ok y ∧
      json.Marshal y1 = .ok (updateSnippet (gorm sql) json s .fresh r).w.body ∧
      (gorm sql).First (updateSnippet (gorm sql) json s .fresh r).db (mapIndex r.Vars "id") = .ok y1 ∧
      (t = none → y1.Title = y.Title) ∧ (c = none → y1.Body = y.Body) ∧
      y1.ID = y.ID ∧ y1.CreatedAt = y.CreatedAt ∧
      List.Forall₂ (fun x x1 => x1.ID = x.ID ∧ x1.CreatedAt = x.CreatedAt ∧
          x1.DeletedAt = x.DeletedAt ∧ (x.ID ≠ y.ID → x1 = x))
        s.rows (updateSnippet (gorm sql) json s .fresh r).db.rows := by
  obtain ⟨y, out, hF, hM, heq, hF1⟩ := updateSnippet_gorm sql json s r t c hb hnum h
  refine ⟨y, _, hF, ?_, hF1, ?_, ?_, rfl, rfl, ?_⟩
  · rw [heq]; exact hM
  · intro ht; simp [ht, mergeNonZero, Snippet.zero]
  · intro hc; simp [hc, mergeNonZero, Snippet.zero]
  · rw [heq]; exact forall₂_merge s.rows y.ID s.now _

theorem update_frame_witness :
    (request "1" (.object none (some "x2"))).Body = .object none (some "x2") ∧
      isNumber (mapIndex (request "1" (.object none (some "x2"))).Vars "id") = true ∧
      (updateSnippet (gorm sqlFragment) textJSON store1 .fresh
        (request "1" (.object none (some "x2")))).w.statusCode = 200 ∧
      ∃ y y1, (gorm sqlFragment).First store1 "1" = .ok y ∧
        (gorm sqlFragment).First (updateSnippet (gorm sqlFragment) textJSON store1 .fresh
          (request "1" (.object none (some "x2")))).db "1" = .ok y1 ∧
        y1.Title = y.Title ∧ y1.CreatedAt = y.CreatedAt :=
  ⟨rfl, by decide, by decide,
   let ⟨y, y1, hF, _, hF1, ht, _, _, hc, _⟩ :=
     update_frame sqlFragment textJSON store1 (request "1" (.object none (some "x2")))
       none (some "x2") rfl (by decide) (by decide)
   ⟨y, y1, hF, hF1, ht rfl, hc⟩⟩

/-- Whatever the store, `updateSnippet` cannot tell a payload field that the
body sets to the empty string from a field the body leaves out: both bodies
decode into the same struct. -/
theorem updateSnippet_empty_eq_absent (db : DB σ) (json : JSON) (s : σ) (w : ResponseWriter)
    (vars : List (String × String)) (t c : Option String) :
    updateSnippet db json s w ⟨vars, .object (some "") c⟩ =
        updateSnippet db json s w ⟨vars, .object none c⟩ ∧
      updateSnippet db json s w ⟨vars, .object t (some "")⟩ =
        updateSnippet db json s w ⟨vars, .object t none⟩ := by
  constructor <;> simp [updateSnippet, Decode, Snippet.zero]

/-- C4, as the code has it: an `updateSnippet` that succeeds on the id of a
snippet (a number in the path) returns (and stores)
a snippet that agrees with the patch body on every field present in it with a
value other than the empty string, and agrees with the row as it was on every
other payload field: those absent from the body and those the body sets to the
empty string. -/
theorem update_merges_nonzero (sql : SQL) (json : JSON) (s : Store) (r : Request)
    (t c : Option String)
    (hb : r.Body = .object t c) (hnum : isNumber (mapIndex r.Vars "id") = true)
    (h : (updateSnippet (gorm sql) json s .fresh r).w.statusCode = 200) :
    ∃ y y1, (gorm sql).First s (mapIndex r.Vars "id") = .ok y ∧
      json.Marshal y1 = .ok (updateSnippet (gorm sql) json s .fresh r).w.body ∧
      (gorm sql).First (updateSnippet (gorm sql) json s .fresh r).db (mapIndex r.Vars "id") = .ok y1 ∧
      (∀ v, t = some v → v ≠ "" → y1.Title = v) ∧
      (∀ v, c = some v → v ≠ "" → y1.Body = v) ∧
      (t = none ∨ t = some "" → y1.Title = y.Title) ∧
      (c = none ∨ c = some "" → y1.Body = y.Body) := by
  obtain ⟨y, out, hF, hM, heq, hF1⟩ := updateSnippet_gorm sql json s r t c hb hnum h
  refine ⟨y, _, hF, ?_, hF1, ?_, ?_, ?_, ?_⟩
  · rw [heq]; exact hM
  · intro v ht hv; simp [ht, hv, mergeNonZero, Snippet.zero]
  · intro v hc hv; simp [hc, hv, mergeNonZero, Snippet.zero]
  · rintro (ht | ht) <;> simp [ht, mergeNonZero, Snippet.zero]
  · rintro (hc | hc) <;> simp [hc, mergeNonZero, Snippet.zero]

theorem update_merges_nonzero_witness :
    (request "1" (.object (some "") (some "x2"))).Body = .object (some "") (some "x2") ∧
      isNumber (mapIndex (request "1" (.object (some "") (some "x2"))).Vars "id") = true ∧
      (updateSnippet (gorm sqlFragment) textJSON store1 .fresh
        (request "1" (.object (some "") (some "x2")))).w.statusCode = 200 ∧
      ∃ y y1, (gorm sqlFragment).First store1 "1" = .ok y ∧
        (gorm sqlFragment).First (updateSnippet (gorm sqlFragment) textJSON store1 .fresh
          (request "1" (.object (some "") (some "x2")))).db "1" = .ok y1 ∧
        y1.Body = "x2" ∧ y1.Title = y.Title :=
  ⟨rfl, by decide, by decide,
   let ⟨y, y1, hF, _, hF1, _, hc, ht, _⟩ :=
     update_merges_nonzero sqlFragment textJSON store1
       (request "1" (.object (some "") (some "x2")))
       (some "") (some "x2") rfl (by decide) (by decide)
   ⟨y, y1, hF, hF1, hc "x2" rfl (by decide), ht (Or.inr rfl)⟩⟩

/-- C4, as stated, fails: on the store with the single row `1`, title `a`, body
`x`, the patch body that sets `title` to the empty string is accepted with
status 200, and the snippet returned and stored still has the title `a`, not
the empty string of the patch. -/
theorem update_zero_value_counterexample :
    (updateSnippet (gorm sqlFragment) textJSON store1 .fresh
        (request "1" (.object (some "") none))).w.statusCode = 200 ∧
      (updateSnippet (gorm sqlFragment) textJSON store1 .fresh
        (request "1" (.object (some "") none))).w.body = "1:a:x" ∧
      (gorm sqlFragment).First (updateSnippet (gorm sqlFragment) textJSON store1 .fresh
          (request "1" (.object (some "") none))).db "1" =
        .ok { ID := 1, CreatedAt := 0, UpdatedAt := 1, DeletedAt := none,
              Title := "a", Body := "x" } ∧
      ¬ (∀ y1, (gorm sqlFragment).First (updateSnippet (gorm sqlFragment) textJSON store1 .fresh
          (request "1" (.object (some "") none))).db "1" = .ok y1 →
        ∀ v, (some "" : Option String) = some v → y1.Title = v) := by
  refine ⟨by decide, by decide, rfl, ?_⟩
  intro H
  have h1 := H _ rfl "" rfl
  revert h1
  decide

end Snippetbin
